import Mathlib

/-!
# Verification of the pcap2har HTTP reconstruction pipeline

Shallow embedding of the claim-relevant parts of the pcap2har sources:
* `src/http/flow.py` — request/response pairing over a parsed TCP flow
  (`Flow.__init__`, `gather_messages`, `parse_streams`, `find_index`);
* `src/pcap2har/httpsession.py` — `Entry.__init__`, `Entry.add_dns`,
  `Entry.calc_total_time`, `UserAgentTracker`, `HttpSession.__init__`;
* `src/pcap.py` — `PcapParser.parse`.

Timestamps are modelled as rationals (`ℚ`); nullable timestamps as
`Option ℚ`.  Python's `None` ordering and truthiness are modelled
explicitly where the source relies on them.  Modules that the sources
use but that are not part of this repository snapshot (`pcaputil`,
`pagetracker`, the `dns` tracker, the HTTP framer producing `Request` /
`Response` objects) appear only through their interfaces, modelled from
the specification; each such definition says so in its doc comment.
-/

namespace Pcap2Har

/-- Modelled from the spec: `pcaputil.ms_from_dpkt_time` (the `pcaputil`
module is not in this snapshot) converts a seconds timestamp to
milliseconds (§4.8 "All times are in milliseconds"). -/
def ms_from_dpkt_time (t : ℚ) : ℚ := 1000 * t

/-- Modelled from the spec: `pcaputil.ms_from_dpkt_time_diff` (the
`pcaputil` module is not in this snapshot) subtracts two timestamps and
converts to milliseconds; "subtractions of null or missing timestamps
yield `-1`" (§4.8). -/
def ms_from_dpkt_time_diff (a b : Option ℚ) : ℚ :=
  match a, b with
  | some x, some y => 1000 * (x - y)
  | _, _ => -1

/-- Python truthiness of a nullable number: `None` and `0` are falsy.
Used to model `if request.ts_connect:` in `Entry.__init__`. -/
def pyTruthy (o : Option ℚ) : Bool :=
  match o with
  | none => false
  | some t => decide (t ≠ 0)

/-- An HTTP request message, as produced by the framer (the `http`
package's `Request` is not in this snapshot; fields modelled from the
spec §3: `ts_start`, `ts_end` message timings, `ts_connect` /
`ts_connect_end` inherited from the TCP direction and possibly null,
`host`, and the `user-agent` header when present). -/
structure Request where
  ts_start : ℚ
  ts_end : ℚ
  ts_connect : Option ℚ
  ts_connect_end : Option ℚ
  host : String
  userAgent : Option String
deriving Repr, DecidableEq

/-- An HTTP response message (spec §3: `ts_start`, `ts_end`). -/
structure Response where
  ts_start : ℚ
  ts_end : ℚ
deriving Repr, DecidableEq

/-- `http.flow.MessagePair`: a request together with its (nullable)
response. -/
structure MessagePair where
  request : Request
  response : Option Response
deriving Repr, DecidableEq

/-- `http.flow.find_index`: index of the first item satisfying the
predicate.  The Python function raises `LookupError` when nothing
matches; the embedding returns `none` in that case. -/
def find_index {α : Type} (f : α → Bool) (seq : List α) : Option ℕ :=
  seq.findIdx? f

/-- The pairing portion of `http.flow.Flow.__init__` (src/http/flow.py
lines 26–42), applied to the parsed request and response lists.

Faithful to the source, including its quirks:
* `requests[0]` on an empty list raises `IndexError`, a subclass of
  `LookupError`, so the surrounding `try`/`except LookupError` leaves
  `pairs = []`; likewise when `find_index` finds no response after the
  first request.
* the source computes `pairable_responses` (responses from
  `first_response_index` on, padded with `None` up to the number of
  requests) but then zips `requests` with the original `responses`
  list, so the padded list is dead code; the embedding keeps the dead
  computation in `_padded` and, like the source, zips with `responses`.
-/
def flowPairs (requests : List Request) (responses : List Response) :
    List MessagePair :=
  match requests with
  | [] => []
  | r0 :: _ =>
    match find_index (fun response => decide (r0.ts_start < response.ts_start))
        responses with
    | none => []
    | some first_response_index =>
      let pairable_responses := responses.drop first_response_index
      let _padded : List (Option Response) :=
        if requests.length > pairable_responses.length then
          pairable_responses.map some ++
            List.replicate (requests.length - pairable_responses.length) none
        else pairable_responses.map some
      (requests.zip responses).map fun p => ⟨p.1, some p.2⟩

/-- `http.flow.gather_messages`, with the framer abstracted: `consume p`
is the `data_consumed` reported by the message constructed at offset
`p`, and `n` is `len(tcpdir.data)`.  The `while pointer < len(data)`
loop is embedded with explicit fuel; `none` means the fuel ran out
before the loop exited. -/
def gather_messages (consume : ℕ → ℕ) (n : ℕ) :
    ℕ → ℕ → Option (List (ℕ × ℕ))
  | 0, pointer => if n ≤ pointer then some [] else none
  | fuel + 1, pointer =>
    if n ≤ pointer then some []
    else
      (gather_messages consume n fuel (pointer + consume pointer)).map
        fun rest => (pointer, consume pointer) :: rest

/-- The messages in `l` are framed at successive offsets of the byte
range `[p, n)`: each message starts where its predecessor ended,
consumes exactly what the framer reports there, and the list ends only
once the pointer has reached `n`. -/
def framed (consume : ℕ → ℕ) (n : ℕ) : ℕ → List (ℕ × ℕ) → Prop
  | p, [] => n ≤ p
  | p, m :: rest =>
    p < n ∧ m.1 = p ∧ m.2 = consume p ∧ framed consume n (p + m.2) rest

/-! ## `src/pcap2har/httpsession.py` -/

/-- A HAR entry (`httpsession.Entry`), restricted to the fields the
timing claims are about; the serialization-only fields
(`startedDateTime`, `pageref`, `ts_start`) are omitted. -/
structure EntryT where
  request : Request
  response : Option Response
  time_blocked : ℚ
  time_dnsing : ℚ
  time_connecting : ℚ
  time_gap : ℚ
  time_sending : ℚ
  time_waiting : ℚ
  time_receiving : ℚ
  time : ℚ
  total_time : ℚ
deriving Repr, DecidableEq

/-- `httpsession.Entry.__init__` (lines 48–79): every timing starts at
the sentinel `-1`; connect/gap/send are unconditional; wait/receive are
set when a response is present; `time` is set only under
`if request.ts_connect:` (Python truthiness — `None` and `0.0` both
skip it; the source has no fallback branch). -/
def Entry_init (request : Request) (response : Option Response) : EntryT :=
  let e0 : EntryT :=
    { request := request
      response := response
      time_blocked := -1
      time_dnsing := -1
      time_connecting :=
        ms_from_dpkt_time_diff request.ts_connect_end request.ts_connect
      time_gap :=
        ms_from_dpkt_time_diff (some request.ts_start) request.ts_connect_end
      time_sending :=
        ms_from_dpkt_time_diff (some request.ts_end) (some request.ts_start)
      time_waiting := -1
      time_receiving := -1
      time := -1
      total_time := -1 }
  match response with
  | none => e0
  | some resp =>
    let e1 :=
      { e0 with
        time_waiting :=
          ms_from_dpkt_time_diff (some resp.ts_start) (some request.ts_end)
        time_receiving :=
          ms_from_dpkt_time_diff (some resp.ts_end) (some resp.ts_start) }
    if pyTruthy request.ts_connect then
      { e1 with
        time := ms_from_dpkt_time_diff (some resp.ts_end) request.ts_connect }
    else e1

/-- A DNS query record (the `dns` module is not in this snapshot;
modelled from the spec §3, keeping only `duration()`, which is
`ts_response - ts_request` or `0` if unresolved). -/
structure DNSQuery where
  duration : ℚ
deriving Repr, DecidableEq

/-- `httpsession.Entry.add_dns` (lines 107–117): the first contribution
replaces the `-1` sentinel, later ones accumulate. -/
def add_dns (e : EntryT) (dns_query : DNSQuery) : EntryT :=
  if e.time_dnsing = -1 then
    { e with time_dnsing := ms_from_dpkt_time dns_query.duration }
  else
    { e with time_dnsing := e.time_dnsing + ms_from_dpkt_time dns_query.duration }

/-- `httpsession.Entry.calc_total_time` (lines 119–128). -/
def calc_total_time (e : EntryT) : EntryT :=
  let t1 := e.time
  let t2 := if e.time_dnsing ≠ -1 ∧ t1 ≠ -1 then t1 + e.time_dnsing else t1
  let t3 := if e.time_blocked ≠ -1 ∧ t2 ≠ -1 then t2 + e.time_blocked else t2
  { e with total_time := t3 }

/-- `httpsession.UserAgentTracker.add`: the tracker's dict *content* is
represented as an association list from user-agent string to use count.
The list's order is bookkeeping only (it happens to record insertion
order): a CPython 2 dict iterates its items in an implementation-defined
hash-based order, so every consumer of the dict's iteration order takes
that order separately, as an arbitrary permutation of this content. -/
def ua_add (data : List (String × ℕ)) (ua_string : String) :
    List (String × ℕ) :=
  if data.any fun p => p.1 = ua_string then
    data.map fun p => if p.1 = ua_string then (p.1, p.2 + 1) else p
  else
    data ++ [(ua_string, 1)]

/-- The `max(self.data.iteritems(), key=lambda v: v[1])` call in
`UserAgentTracker.dominant_user_agent`: Python's `max` keeps the
current maximum unless a strictly greater value appears, so the first
maximal item in iteration order wins. -/
def pymax_by_count (p : String × ℕ) (rest : List (String × ℕ)) :
    String × ℕ :=
  rest.foldl (fun best q => if best.2 < q.2 then q else best) p

/-- `httpsession.UserAgentTracker.dominant_user_agent` (lines 149–159):
`None` on an empty dict, the sole key on a singleton, otherwise the
max-count item.  The argument is the dict's items *in its iteration
order* (`self.data.iteritems()` / `self.data.keys()`), which in
CPython 2 is hash-based and not necessarily insertion order. -/
def dominant_user_agent (data : List (String × ℕ)) : Option String :=
  if data.length = 0 then none
  else if data.length = 1 then data.head?.map Prod.fst
  else
    match data with
    | [] => none
    | p :: rest => some (pymax_by_count p rest).1

/-- The sort key comparison produced by `pairs.sort(key=lambda pair:
pair.request.ts_connect)` under Python 2 semantics, where `None`
compares less than every number.  `pyKeyLe a b` is `¬ (b < a)` for that
order. -/
def pyKeyLe (a b : Option ℚ) : Bool :=
  match a, b with
  | none, _ => true
  | some _, none => false
  | some x, some y => decide (x ≤ y)

/-- The total preorder on message pairs used by the session's sort. -/
def pairLe (p q : MessagePair) : Prop :=
  pyKeyLe p.request.ts_connect q.request.ts_connect = true

instance : DecidableRel pairLe := fun p q => by
  unfold pairLe; infer_instance

instance : IsTotal MessagePair pairLe := by
  constructor
  intro p q
  unfold pairLe pyKeyLe
  rcases p.request.ts_connect with _ | x <;> rcases q.request.ts_connect with _ | y <;>
    simp [le_total]

instance : IsTrans MessagePair pairLe := by
  constructor
  intro p q r
  unfold pairLe pyKeyLe
  rcases p.request.ts_connect with _ | x <;> rcases q.request.ts_connect with _ | y <;>
    rcases r.request.ts_connect with _ | z <;> simp
  exact le_trans

/-- The `pairs.sort(key=lambda pair: pair.request.ts_connect)` call in
`HttpSession.__init__` (lines 199–201).  Python's sort is stable with
respect to the key's total preorder, so it is embedded as a stable
insertion sort over `pairLe`. -/
def sessionSort (pairs : List MessagePair) : List MessagePair :=
  List.insertionSort pairLe pairs

/-! ## Flow analysis (`src/http/flow.py` lines 13–23 and 70–89) and the
session's flow loop (`src/pcap2har/httpsession.py` lines 177–190) -/

/-- The outcomes of the four possible framing attempts on one TCP flow.
The framer itself (`http.Request` / `http.Response` construction, which
may raise `dpkt.UnpackError`) is outside this snapshot, so each attempt
is abstracted to its result: `some` messages or `none` for a parse
failure. -/
structure TCPFlowParse where
  fwd_as_requests : Option (List Request)
  rev_as_responses : Option (List Response)
  rev_as_requests : Option (List Request)
  fwd_as_responses : Option (List Response)

/-- `http.flow.parse_streams`: succeeds only when both gathers succeed
(`except dpkt.UnpackError: return False, None, None`). -/
def parse_streams (req : Option (List Request))
    (resp : Option (List Response)) :
    Option (List Request × List Response) :=
  match req, resp with
  | some rs, some ss => some (rs, ss)
  | _, _ => none

/-- The error raised by `Flow.__init__` when neither direction
assignment parses ("TCPFlow does not contain HTTP"); that the exception
class is the one `HttpSession` catches is modelled from the spec
(§4.5/§7 `NotHttpFlow`), since the `http` package's `__init__.py` is
not in this snapshot. -/
inductive HttpFlowError
  | notHttp
deriving Repr, DecidableEq

/-- `http.flow.Flow.__init__` (lines 13–42): try forward as the request
direction, on failure retry swapped, raise when both fail; on success
run the pairing. -/
def Flow_init (t : TCPFlowParse) :
    Except HttpFlowError (List MessagePair) :=
  match parse_streams t.fwd_as_requests t.rev_as_responses with
  | some (rs, ss) => .ok (flowPairs rs ss)
  | none =>
    match parse_streams t.rev_as_requests t.fwd_as_responses with
    | some (rs, ss) => .ok (flowPairs rs ss)
    | none => .error .notHttp

/-- `httpsession.HttpErrorRecord`, keeping the recorded error. -/
structure HttpErrorRecord where
  internal_error : HttpFlowError
deriving Repr, DecidableEq

/-- The flow loop of `HttpSession.__init__` (lines 179–188): each flow
is analyzed inside `try`/`except`; failures append an error record and
the loop continues.  Returns the per-flow pair lists and the error
list, in loop order. -/
def processFlows :
    List TCPFlowParse → List (List MessagePair) × List HttpErrorRecord
  | [] => ([], [])
  | t :: rest =>
    match Flow_init t with
    | .ok f =>
      let r := processFlows rest
      (f :: r.1, r.2)
    | .error e =>
      let r := processFlows rest
      (r.1, ⟨e⟩ :: r.2)

/-! ## The rest of `HttpSession.__init__` -/

/-- The entry loop of `HttpSession.__init__` (lines 203–213), carrying
the user-agent tracker state: per pair build an `Entry`, record the
`user-agent` header if present, and keep the entry when it has a
response (a live Python object is always truthy) or when
`keep_unfulfilled_requests` is set. -/
def entryLoop (keep_unfulfilled : Bool) (ua : List (String × ℕ)) :
    List MessagePair → List EntryT × List (String × ℕ)
  | [] => ([], ua)
  | msg :: rest =>
    let ua1 :=
      match msg.request.userAgent with
      | some s => ua_add ua s
      | none => ua
    let e := Entry_init msg.request msg.response
    let r := entryLoop keep_unfulfilled ua1 rest
    if msg.response.isSome || keep_unfulfilled then (e :: r.1, r.2)
    else r

/-- Lookup in the DNS tracker's `by_hostname` mapping (the `dns` module
is not in this snapshot; modelled from the spec §4.6: `by_hostname:
name → list<DNSQuery>` in observation order, modelled as an association
list). -/
def dnsLookup (by_hostname : List (String × List DNSQuery))
    (name : String) : Option (List DNSQuery) :=
  (by_hostname.find? fun p => p.1 = name).map Prod.snd

/-- The DNS-attachment walk of `HttpSession.__init__` (lines 218–231),
carrying `names_mentioned`: the first entry for each hostname gets
`add_dns` for every query indexed under that name, then every entry
gets `calc_total_time`.  (The `page_times` bookkeeping in the same loop
touches only page records, not entries, and is omitted.) -/
def dnsWalkGo (by_hostname : List (String × List DNSQuery)) :
    List String → List EntryT → List EntryT
  | _, [] => []
  | names_mentioned, e :: rest =>
    let name := e.request.host
    if name ∈ names_mentioned then
      calc_total_time e :: dnsWalkGo by_hostname names_mentioned rest
    else
      let e1 :=
        match dnsLookup by_hostname name with
        | some ds => ds.foldl add_dns e
        | none => e
      calc_total_time e1 :: dnsWalkGo by_hostname (name :: names_mentioned) rest

/-- The DNS walk started with an empty `names_mentioned` set. -/
def dnsWalk (by_hostname : List (String × List DNSQuery))
    (entries : List EntryT) : List EntryT :=
  dnsWalkGo by_hostname [] entries

/-- A page record owned by the page tracker.  Modelled from the spec
(§1, §4.7): the `pagetracker` module is not in this snapshot; pages
carry an id and receive `network_load_time` writes. -/
structure Page where
  pageref : String
deriving Repr, DecidableEq

/-- Modelled from the spec: `pagetracker.PageTracker` (not in this
snapshot) owns the list of pages and answers `getref`. -/
structure PageTracker where
  pages : List Page
deriving Repr, DecidableEq

/-- The runtime error classes relevant to the session constructor's
final loop: `AttributeError` models Python's
`'NoneType' object has no attribute 'pages'`. -/
inductive PyError
  | attributeError
deriving Repr, DecidableEq

/-- The observable result of a completed `HttpSession.__init__`. -/
structure SessionOk where
  errors : List HttpErrorRecord
  entries : List EntryT
  user_agent : Option String
deriving Repr, DecidableEq

/-- The user-agent tracker state accumulated by the session's entry
loop over the sorted pairs. -/
def sessionUATracker (keep_unfulfilled : Bool)
    (inputs : List TCPFlowParse) : List (String × ℕ) :=
  let flows := (processFlows inputs).1
  let pairs := flows.foldl (· ++ ·) []
  (entryLoop keep_unfulfilled [] (sessionSort pairs)).2

/-- `HttpSession.__init__` (lines 173–241), with the configuration
passed explicitly (`settings.process_pages`,
`settings.keep_unfulfilled_requests`) and the collaborating trackers
reduced to their data.  `dict_iter` is the iteration order of the
user-agent tracker's dict: CPython 2 visits dict items in an
implementation-defined hash-based order, so the order in which
`dominant_user_agent` sees the items is an arbitrary permutation of the
tracker's content, supplied as a parameter.  The final loop `for page
in self.page_tracker.pages` (line 238) runs unconditionally; when
`process_pages` is false, `self.page_tracker` is `None` and the
attribute access raises `AttributeError`, which the embedding returns
as `Except.error`. -/
def HttpSession_init
    (dict_iter : List (String × ℕ) → List (String × ℕ))
    (process_pages keep_unfulfilled : Bool)
    (inputs : List TCPFlowParse)
    (by_hostname : List (String × List DNSQuery))
    (tracker_pages : List Page) : Except PyError SessionOk :=
  let r := processFlows inputs
  let pairs := r.1.foldl (· ++ ·) []
  let page_tracker : Option PageTracker :=
    if process_pages then some ⟨tracker_pages⟩ else none
  let sorted := sessionSort pairs
  let el := entryLoop keep_unfulfilled [] sorted
  let user_agent := dominant_user_agent (dict_iter el.2)
  let entries := dnsWalk by_hostname el.1
  match page_tracker with
  | none => .error .attributeError
  | some _ => .ok ⟨r.2, entries, user_agent⟩

/-! ## `src/pcap.py` -/

/-- A captured frame as `PcapParser.parse` sees it: the libpcap header
lengths, and the outcome of the link-layer decode (`dpkt` is external;
per spec §4.1 the decoder is a black box that either yields a datagram
or fails). -/
structure PcapFrame where
  caplen : ℕ
  len : ℕ
  decode_ok : Bool
deriving Repr, DecidableEq

/-- The cause stored in a `PcapErrorRecord`. -/
inductive PcapCause
  | incompletePacket
  | decodeError
deriving Repr, DecidableEq

/-- The frame loop of `PcapParser.parse` (src/pcap.py lines 69–100),
returning `(error records as (packet_number, cause), dispatched packet
numbers)`.  Faithful to the source: `packet_count` starts at 1 and is
incremented at the *end* of the loop body, which the incomplete-packet
branch skips via `continue`. -/
def parseGo (packet_count : ℕ) :
    List PcapFrame → List (ℕ × PcapCause) × List ℕ
  | [] => ([], [])
  | f :: rest =>
    if f.caplen ≠ f.len then
      let r := parseGo packet_count rest
      ((packet_count, .incompletePacket) :: r.1, r.2)
    else if f.decode_ok then
      let r := parseGo (packet_count + 1) rest
      (r.1, packet_count :: r.2)
    else
      let r := parseGo (packet_count + 1) rest
      ((packet_count, .decodeError) :: r.1, r.2)

/-- `PcapParser.parse` applied to the frame sequence, starting
`packet_count = 1` ("start from 1 like Wireshark"). -/
def PcapParser_parse (frames : List PcapFrame) :
    List (ℕ × PcapCause) × List ℕ :=
  parseGo 1 frames

/-! ## Claim theorems -/

/-- C1: the claim says a response whose `ts_start` is not after the
first request's `ts_start` is discarded and `R[i]` is paired with
`S[j+i]`.  Evaluating the code at the spec's orphan-response scenario
(request at t=10, responses at t=5 and t=15) shows `Flow.__init__`
zipping `requests` with the *original* `responses` list: the orphan
response at t=5 ends up paired with the request, and the response at
t=15 is dropped. -/
theorem c1_orphan_response_is_paired :
    flowPairs [⟨10, 11, some 9, some 9, "x", none⟩]
        [⟨5, 6⟩, ⟨15, 16⟩] =
      [⟨⟨10, 11, some 9, some 9, "x", none⟩, some ⟨5, 6⟩⟩] := by
  decide

/-- C3: the claim says a request beyond the last pairable response is
paired with a null response.  Evaluating the code at two requests
(t=10, t=20) and one response (t=15): the `None`-padding is applied to
the dead `pairable_responses` list while the emitted pairs come from
`zip(requests, responses)`, so the second request appears in no pair at
all. -/
theorem c3_excess_request_dropped_not_null_paired :
    flowPairs
        [⟨10, 11, some 9, some 9, "x", none⟩,
         ⟨20, 21, some 9, some 9, "x", none⟩]
        [⟨15, 16⟩] =
      [⟨⟨10, 11, some 9, some 9, "x", none⟩, some ⟨15, 16⟩⟩] := by
  decide

/-- C2: the claim says `HttpSession.__init__` completes for every input
whether page tracking is enabled or disabled.  With `process_pages`
disabled, `self.page_tracker` is `None`, and the unguarded final loop
`for page in self.page_tracker.pages` raises `AttributeError`: the
constructor aborts on *every* input in that mode. -/
theorem c2_init_aborts_when_process_pages_disabled
    (dict_iter : List (String × ℕ) → List (String × ℕ))
    (keep_unfulfilled : Bool) (inputs : List TCPFlowParse)
    (by_hostname : List (String × List DNSQuery)) (pages : List Page) :
    HttpSession_init dict_iter false keep_unfulfilled inputs by_hostname
      pages = .error .attributeError := rfl

/-- C8: the claim says every error record's `packet_number` equals the
frame's 1-based position.  The `continue` in the incomplete-packet
branch skips the `packet_count += 1` at the end of the loop body, so
after one incomplete frame every later record is off by one: for a
first frame with `caplen ≠ len` followed by a frame that fails
link-layer decoding, both records carry number 1. -/
theorem c8_error_record_misnumbered :
    PcapParser_parse [⟨1, 2, true⟩, ⟨3, 3, false⟩] =
      ([(1, .incompletePacket), (1, .decodeError)], []) := by
  decide

/-- The ordering property asserted by claim C5: every pair with a null
`ts_connect` sorts after every pair with a non-null one (once a null
key appears, all later keys are null). -/
def nullsSortLast (l : List MessagePair) : Prop :=
  l.Pairwise fun a b =>
    a.request.ts_connect = none → b.request.ts_connect = none

/-- C5 counterexample: sorting a non-null-keyed pair and a null-keyed
pair, the null key comes *first* (Python 2's `None` compares less than
every number), refuting "null sorts last". -/
theorem c5_nulls_first_counterexample :
    ¬ nullsSortLast (sessionSort
      [⟨⟨1, 2, some 1, none, "x", none⟩, none⟩,
       ⟨⟨1, 2, none, none, "x", none⟩, none⟩]) := by
  unfold nullsSortLast
  decide

/-- C5 (amended): the session sorts the collected pairs by
`request.ts_connect`, stably, with null keys sorting *before* all
non-null keys: the output is a permutation of the input, is sorted
under the Python 2 key order, and never places a non-null key before a
null one. -/
theorem c5_sessionSort_spec (pairs : List MessagePair) :
    (sessionSort pairs).Perm pairs ∧
    List.Sorted pairLe (sessionSort pairs) ∧
    (sessionSort pairs).Pairwise
      (fun a b =>
        b.request.ts_connect = none → a.request.ts_connect = none) := by
  refine ⟨List.perm_insertionSort _ _, List.sorted_insertionSort _ _, ?_⟩
  refine (List.sorted_insertionSort pairLe pairs).imp ?_
  intro a b hab hb
  unfold pairLe pyKeyLe at hab
  rcases ha : a.request.ts_connect with _ | x
  · rfl
  · rw [ha, hb] at hab
    simp at hab

/-- C4 counterexample: a request with `ts_connect = None` and a
response ending at t=2 after a request starting at t=1.  The claimed
fallback would give `time = 1000` ms; the code leaves the `-1`
sentinel, because `Entry.__init__` sets `time` only under
`if request.ts_connect:` and has no fallback branch. -/
theorem c4_no_fallback_counterexample :
    (Entry_init ⟨1, 2, none, none, "x", none⟩ (some ⟨1, 2⟩)).time = -1 ∧
      ms_from_dpkt_time_diff (some 2) (some 1) = 1000 ∧ (1000 : ℚ) ≠ -1 := by
  refine ⟨rfl, by norm_num [ms_from_dpkt_time_diff], by norm_num⟩

/-- C4 (amended): for an entry with a non-null response,
`time = response.ts_end − request.ts_connect` in milliseconds when
`ts_connect` is non-null (and non-zero, since the source tests Python
truthiness); when `ts_connect` is null, `time` keeps the `-1` sentinel
— there is no fallback to `request.ts_start`. -/
theorem c4_entry_time (request : Request) (resp : Response) :
    (∀ c : ℚ, request.ts_connect = some c → c ≠ 0 →
      (Entry_init request (some resp)).time = 1000 * (resp.ts_end - c)) ∧
    (request.ts_connect = none →
      (Entry_init request (some resp)).time = -1) := by
  constructor
  · intro c hc hc0
    simp [Entry_init, pyTruthy, hc, hc0, ms_from_dpkt_time_diff]
  · intro hc
    simp [Entry_init, pyTruthy, hc]

/-- Closed instantiation of `c4_entry_time`: a request connecting at
t=3 whose response ends at t=5 yields `time = 2000` ms, and a request
with null `ts_connect` keeps `time = -1`. -/
theorem c4_entry_time_witness :
    (Entry_init ⟨4, 5, some 3, some 3, "x", none⟩ (some ⟨5, 5⟩)).time =
        1000 * ((5 : ℚ) - 3) ∧
      (Entry_init ⟨4, 5, none, none, "x", none⟩ (some ⟨5, 5⟩)).time = -1 :=
  ⟨(c4_entry_time ⟨4, 5, some 3, some 3, "x", none⟩ ⟨5, 5⟩).1 3 rfl
      (by norm_num),
    (c4_entry_time ⟨4, 5, none, none, "x", none⟩ ⟨5, 5⟩).2 rfl⟩

/-- C10: `gather_messages` terminates on every finite direction byte
stream provided every constructed message consumes at least one byte:
with fuel at least `n - pointer` the fuelled loop completes (the
pointer strictly increases each iteration and the loop stops once it
reaches `len(tcpdir.data)`), and the returned messages are framed at
successive offsets. -/
theorem c10_gather_messages_terminates (consume : ℕ → ℕ) (n : ℕ)
    (hc : ∀ p, p < n → 1 ≤ consume p) :
    ∀ fuel pointer, n - pointer ≤ fuel →
      ∃ l, gather_messages consume n fuel pointer = some l ∧
        framed consume n pointer l := by
  intro fuel
  induction fuel with
  | zero =>
    intro pointer h
    have hnp : n ≤ pointer := by omega
    exact ⟨[], by simp [gather_messages, hnp], by simpa [framed] using hnp⟩
  | succ fuel ih =>
    intro pointer h
    by_cases hp : n ≤ pointer
    · exact ⟨[], by simp [gather_messages, hp], by simpa [framed] using hp⟩
    · push_neg at hp
      have h1 : 1 ≤ consume pointer := hc pointer hp
      obtain ⟨l, hl, hf⟩ := ih (pointer + consume pointer) (by omega)
      refine ⟨(pointer, consume pointer) :: l, ?_, ?_⟩
      · simp [gather_messages, Nat.not_le.mpr hp, hl]
      · simp only [framed]
        exact ⟨hp, trivial, trivial, hf⟩

/-- Closed instantiation of `c10_gather_messages_terminates`: a
5-byte direction whose framer always consumes 2 bytes is gathered
completely with fuel 5, starting from offset 0. -/
theorem c10_gather_messages_terminates_witness :
    ∃ l, gather_messages (fun _ => 2) 5 5 0 = some l ∧
      framed (fun _ => 2) 5 0 l :=
  c10_gather_messages_terminates (fun _ => 2) 5
    (fun p _ => by norm_num) 5 0 (by norm_num)

/-- The session's flow loop processes a concatenation of inputs
independently: flows and error records concatenate. -/
theorem processFlows_append (l1 l2 : List TCPFlowParse) :
    processFlows (l1 ++ l2) =
      ((processFlows l1).1 ++ (processFlows l2).1,
       (processFlows l1).2 ++ (processFlows l2).2) := by
  induction l1 with
  | nil => simp [processFlows]
  | cons t rest ih =>
    cases h : Flow_init t <;>
      simp [processFlows, h, ih]

/-- C7: the flow analyzer first tries `fwd` as requests with `rev` as
responses (flow `u`), on failure retries with the directions swapped
(flow `v`), and when both attempts fail (flow `t`) the flow raises
"not HTTP", which the session loop turns into an error record appended
to its error list while the remaining flows (`pre`, `post`) are still
processed. -/
theorem c7_not_http_reported_and_continues
    (t u v : TCPFlowParse) (pre post : List TCPFlowParse)
    (urs : List Request) (uss : List Response)
    (vrs : List Request) (vss : List Response)
    (ht1 : parse_streams t.fwd_as_requests t.rev_as_responses = none)
    (ht2 : parse_streams t.rev_as_requests t.fwd_as_responses = none)
    (hu1 : u.fwd_as_requests = some urs)
    (hu2 : u.rev_as_responses = some uss)
    (hv1 : parse_streams v.fwd_as_requests v.rev_as_responses = none)
    (hv2 : v.rev_as_requests = some vrs)
    (hv3 : v.fwd_as_responses = some vss) :
    Flow_init u = .ok (flowPairs urs uss) ∧
    Flow_init v = .ok (flowPairs vrs vss) ∧
    Flow_init t = .error .notHttp ∧
    (processFlows (pre ++ t :: post)).1 =
      (processFlows pre).1 ++ (processFlows post).1 ∧
    (processFlows (pre ++ t :: post)).2 =
      (processFlows pre).2 ++ ⟨.notHttp⟩ :: (processFlows post).2 := by
  have hflowt : Flow_init t = .error .notHttp := by
    simp [Flow_init, ht1, ht2]
  refine ⟨?_, ?_, hflowt, ?_, ?_⟩
  · simp [Flow_init, parse_streams, hu1, hu2]
  · simp only [Flow_init, hv1]
    simp [parse_streams, hv2, hv3]
  · simp [processFlows_append, processFlows, hflowt]
  · simp [processFlows_append, processFlows, hflowt]

/-- Closed instantiation of `c7_not_http_reported_and_continues`: a
flow with all four framing attempts failing, between two flows that
parse (one in the forward orientation, one swapped). -/
theorem c7_not_http_reported_and_continues_witness :
    Flow_init ⟨some [], some [], none, none⟩ = .ok (flowPairs [] []) ∧
    Flow_init ⟨none, some [], some [], some []⟩ = .ok (flowPairs [] []) ∧
    Flow_init ⟨none, none, none, none⟩ = .error .notHttp ∧
    (processFlows ([⟨some [], some [], none, none⟩] ++
        ⟨none, none, none, none⟩ :: [⟨none, some [], some [], some []⟩])).1 =
      (processFlows [⟨some [], some [], none, none⟩]).1 ++
        (processFlows [⟨none, some [], some [], some []⟩]).1 ∧
    (processFlows ([⟨some [], some [], none, none⟩] ++
        ⟨none, none, none, none⟩ :: [⟨none, some [], some [], some []⟩])).2 =
      (processFlows [⟨some [], some [], none, none⟩]).2 ++
        ⟨.notHttp⟩ :: (processFlows [⟨none, some [], some [], some []⟩]).2 :=
  c7_not_http_reported_and_continues
    ⟨none, none, none, none⟩ ⟨some [], some [], none, none⟩
    ⟨none, some [], some [], some []⟩
    [⟨some [], some [], none, none⟩] [⟨none, some [], some [], some []⟩]
    [] [] [] [] rfl rfl rfl rfl rfl rfl rfl

/-- Python's `max` over `p :: rest` keyed by the count: the result is
an element of the list, every count is at most its count, and every
element strictly before it has a strictly smaller count (ties keep the
earlier element). -/
theorem pymax_by_count_spec (rest : List (String × ℕ)) :
    ∀ p : String × ℕ, ∃ pre post,
      p :: rest = pre ++ pymax_by_count p rest :: post ∧
      (∀ q ∈ p :: rest, q.2 ≤ (pymax_by_count p rest).2) ∧
      ∀ q ∈ pre, q.2 < (pymax_by_count p rest).2 := by
  induction rest with
  | nil =>
    intro p
    exact ⟨[], [], rfl, by simp [pymax_by_count], by simp⟩
  | cons q rest ih =>
    intro p
    have hfold : pymax_by_count p (q :: rest) =
        if p.2 < q.2 then pymax_by_count q rest else pymax_by_count p rest := by
      by_cases h : p.2 < q.2 <;> simp [pymax_by_count, h]
    by_cases h : p.2 < q.2
    · rw [hfold, if_pos h]
      obtain ⟨pre, post, hdec, hmax, hpre⟩ := ih q
      refine ⟨p :: pre, post, by rw [List.cons_append, ← hdec], ?_, ?_⟩
      · intro x hx
        rcases List.mem_cons.mp hx with hx | hx
        · subst hx
          exact le_of_lt (lt_of_lt_of_le h (hmax q (List.mem_cons_self q rest)))
        · exact hmax x hx
      · intro x hx
        rcases List.mem_cons.mp hx with hx | hx
        · subst hx
          exact lt_of_lt_of_le h (hmax q (List.mem_cons_self q rest))
        · exact hpre x hx
    · rw [hfold, if_neg h]
      push_neg at h
      obtain ⟨pre, post, hdec, hmax, hpre⟩ := ih p
      cases pre with
      | nil =>
        simp only [List.nil_append] at hdec
        obtain ⟨hp, hpost⟩ := List.cons.inj hdec
        refine ⟨[], q :: post, ?_, ?_, by simp⟩
        · simp [← hp, ← hpost]
        · intro x hx
          rcases List.mem_cons.mp hx with hx | hx
          · subst hx; rw [← hp]
          · rcases List.mem_cons.mp hx with hx | hx
            · subst hx; rw [← hp]; exact h
            · exact hmax x (List.mem_cons_of_mem _ hx)
      | cons a pre =>
        simp only [List.cons_append] at hdec
        obtain ⟨ha, htail⟩ := List.cons.inj hdec
        have hplt : p.2 < (pymax_by_count p rest).2 := by
          have := hpre a (List.mem_cons_self a pre)
          rwa [← ha] at this
        refine ⟨p :: q :: pre, post, ?_, ?_, ?_⟩
        · rw [List.cons_append, List.cons_append, ← htail]
        · intro x hx
          rcases List.mem_cons.mp hx with hx | hx
          · subst hx; exact le_of_lt hplt
          · rcases List.mem_cons.mp hx with hx | hx
            · subst hx; exact le_of_lt (lt_of_le_of_lt h hplt)
            · exact hmax x (List.mem_cons_of_mem _ hx)
        · intro x hx
          rcases List.mem_cons.mp hx with hx | hx
          · subst hx; exact hplt
          · rcases List.mem_cons.mp hx with hx | hx
            · subst hx; exact lt_of_le_of_lt h hplt
            · exact hpre x (List.mem_cons_of_mem _ hx)

/-- On a nonempty tracker dict, `dominant_user_agent` returns the
max-by-count key (the singleton branch agrees with the general one). -/
theorem dominant_user_agent_cons (p : String × ℕ)
    (rest : List (String × ℕ)) :
    dominant_user_agent (p :: rest) = some (pymax_by_count p rest).1 := by
  cases rest with
  | nil => simp [dominant_user_agent, pymax_by_count]
  | cons q rest => simp [dominant_user_agent, pymax_by_count]

/-- C9 counterexample: the claimed tie-break "in favour of the string
inserted first" is not a property of the program.  Adding
"a", "a", "b", "b" leaves the tracker's dict holding exactly the counts
{"a": 2, "b": 2}; a CPython 2 hash-based iteration order may present
`("b", 2)` first (any permutation of the content is a possible
iteration order, which is all Python 2 guarantees), and then
`max(self.data.iteritems(), ...)` returns "b", not the first-inserted
"a". -/
theorem c9_tie_break_counterexample :
    ua_add (ua_add (ua_add (ua_add [] "a") "a") "b") "b" =
      [("a", 2), ("b", 2)] ∧
    List.Perm [("b", 2), ("a", 2)] [("a", 2), ("b", 2)] ∧
    dominant_user_agent [("b", 2), ("a", 2)] = some "b" ∧
    "b" ≠ "a" :=
  ⟨by decide, by decide, by decide, by decide⟩

/-- C9 (amended): `dominant_user_agent` returns null on an empty
tracker, and otherwise a string with the maximum use count, ties broken
in favour of the item that comes first in the dict's *iteration order*
`d` — which in Python 2 is hash-based and not necessarily insertion
order; and a completed session's `user_agent` field is exactly
`dominant_user_agent` of the tracker's items in the session's iteration
order. -/
theorem c9_dominant_user_agent_spec
    (d : List (String × ℕ)) (hd : d ≠ [])
    (dict_iter : List (String × ℕ) → List (String × ℕ))
    (keep_unfulfilled : Bool) (inputs : List TCPFlowParse)
    (by_hostname : List (String × List DNSQuery)) (pages : List Page)
    (s : SessionOk)
    (hs : HttpSession_init dict_iter true keep_unfulfilled inputs
      by_hostname pages = .ok s) :
    dominant_user_agent [] = none ∧
    (∃ pre k cnt post,
      d = pre ++ (k, cnt) :: post ∧
      dominant_user_agent d = some k ∧
      (∀ q ∈ d, q.2 ≤ cnt) ∧
      ∀ q ∈ pre, q.2 < cnt) ∧
    s.user_agent =
      dominant_user_agent
        (dict_iter (sessionUATracker keep_unfulfilled inputs)) := by
  refine ⟨rfl, ?_, ?_⟩
  · match d, hd with
    | p :: rest, _ =>
      obtain ⟨pre, post, hdec, hmax, hpre⟩ := pymax_by_count_spec rest p
      refine ⟨pre, (pymax_by_count p rest).1, (pymax_by_count p rest).2, post,
        ?_, dominant_user_agent_cons p rest, hmax, hpre⟩
      rwa [Prod.mk.eta]
  · have hs' := Except.ok.inj hs
    rw [← hs']
    rfl

/-- Closed instantiation of `c9_dominant_user_agent_spec`: an iteration
order presenting two strings tied at count 2 (the one iterated first
wins) and the empty-capture session with page tracking enabled. -/
theorem c9_dominant_user_agent_spec_witness :
    dominant_user_agent [] = none ∧
    (∃ pre k cnt post,
      [("b", 2), ("a", 2)] = pre ++ (k, cnt) :: post ∧
      dominant_user_agent [("b", 2), ("a", 2)] = some k ∧
      (∀ q ∈ [("b", 2), ("a", 2)], q.2 ≤ cnt) ∧
      ∀ q ∈ pre, q.2 < cnt) ∧
    (⟨[], [], none⟩ : SessionOk).user_agent =
      dominant_user_agent ((fun l => l) (sessionUATracker false [])) :=
  c9_dominant_user_agent_spec [("b", 2), ("a", 2)] (by decide) (fun l => l)
    false [] [] [] ⟨[], [], none⟩ rfl

theorem add_dns_request (e : EntryT) (q : DNSQuery) :
    (add_dns e q).request = e.request := by
  unfold add_dns
  split <;> rfl

theorem foldl_add_dns_request (ds : List DNSQuery) (e : EntryT) :
    (ds.foldl add_dns e).request = e.request := by
  induction ds generalizing e with
  | nil => rfl
  | cons d ds ih => rw [List.foldl_cons, ih, add_dns_request]

theorem calc_total_time_dnsing (e : EntryT) :
    (calc_total_time e).time_dnsing = e.time_dnsing := rfl

theorem calc_total_time_request (e : EntryT) :
    (calc_total_time e).request = e.request := rfl

/-- Accumulation lemma for `Entry.add_dns`: once `time_dnsing` is
non-negative (hence not the `-1` sentinel), folding queries with
non-negative durations adds their total in milliseconds. -/
theorem foldl_add_dns_nonneg (ds : List DNSQuery) (e : EntryT)
    (he : 0 ≤ e.time_dnsing) (hpos : ∀ dq ∈ ds, 0 ≤ dq.duration) :
    (ds.foldl add_dns e).time_dnsing =
      e.time_dnsing + 1000 * (ds.map DNSQuery.duration).sum := by
  induction ds generalizing e with
  | nil => simp
  | cons d ds ih =>
    have hne : ¬ e.time_dnsing = -1 := by
      intro hc
      rw [hc] at he
      norm_num at he
    have hd : 0 ≤ d.duration := hpos d (List.mem_cons_self d ds)
    rw [List.foldl_cons]
    have hstep : add_dns e d =
        { e with time_dnsing := e.time_dnsing + 1000 * d.duration } := by
      unfold add_dns ms_from_dpkt_time
      rw [if_neg hne]
    rw [hstep]
    rw [ih _ (by
      simp only []
      positivity) (fun q hq => hpos q (List.mem_cons_of_mem _ hq))]
    simp only [List.map_cons, List.sum_cons]
    ring

/-- From the `-1` sentinel, folding a nonempty list of queries with
non-negative durations yields exactly the millisecond sum of the
durations (the first query replaces the sentinel, later ones add). -/
theorem foldl_add_dns_sentinel (ds : List DNSQuery) (e : EntryT)
    (he : e.time_dnsing = -1) (hne : ds ≠ [])
    (hpos : ∀ dq ∈ ds, 0 ≤ dq.duration) :
    (ds.foldl add_dns e).time_dnsing =
      1000 * (ds.map DNSQuery.duration).sum := by
  match ds, hne with
  | d :: ds, _ =>
    have hd : 0 ≤ d.duration := hpos d (List.mem_cons_self d ds)
    rw [List.foldl_cons]
    have hstep : add_dns e d =
        { e with time_dnsing := 1000 * d.duration } := by
      unfold add_dns ms_from_dpkt_time
      rw [if_pos he]
    rw [hstep]
    rw [foldl_add_dns_nonneg ds _ (by
      simp only []
      positivity) (fun q hq => hpos q (List.mem_cons_of_mem _ hq))]
    simp only [List.map_cons, List.sum_cons]
    ring

/-- Once a hostname is in `names_mentioned`, no entry for it ever gets
DNS time again: every output entry for that hostname keeps whatever
sentinel it entered the walk with. -/
theorem dnsWalkGo_seen (by_hostname : List (String × List DNSQuery))
    (hn : String) (l : List EntryT) :
    ∀ seen : List String, hn ∈ seen →
      (∀ x ∈ l, x.time_dnsing = -1) →
      ∀ y ∈ dnsWalkGo by_hostname seen l, y.request.host = hn →
        y.time_dnsing = -1 := by
  induction l with
  | nil =>
    intro seen _ _ y hy
    simp [dnsWalkGo] at hy
  | cons e rest ih =>
    intro seen hseen hinit y hy hyh
    by_cases hmem : e.request.host ∈ seen
    · rw [dnsWalkGo, if_pos hmem] at hy
      rcases List.mem_cons.mp hy with hy | hy
      · subst hy
        rw [calc_total_time_dnsing]
        exact hinit e (List.mem_cons_self e rest)
      · exact ih seen hseen (fun x hx => hinit x (List.mem_cons_of_mem _ hx))
          y hy hyh
    · rw [dnsWalkGo, if_neg hmem] at hy
      have hne : e.request.host ≠ hn := fun hc => hmem (hc ▸ hseen)
      rcases List.mem_cons.mp hy with hy | hy
      · subst hy
        exfalso
        apply hne
        rw [← hyh, calc_total_time_request]
        cases hl : dnsLookup by_hostname e.request.host with
        | none => simp [hl]
        | some ds => simp [hl, foldl_add_dns_request]
      · exact ih (e.request.host :: seen) (List.mem_cons_of_mem _ hseen)
          (fun x hx => hinit x (List.mem_cons_of_mem _ hx)) y hy hyh

/-- The DNS walk on `pre ++ e :: post`, where `e` is the first entry
for hostname `hn`: the prefix keeps its length and contains no entry
for `hn`, `e` comes out with `time_dnsing` equal to the millisecond sum
of all queries indexed under `hn`, and every later entry for `hn` keeps
the `-1` sentinel. -/
theorem dnsWalkGo_first (by_hostname : List (String × List DNSQuery))
    (hn : String) (e : EntryT) (post : List EntryT) (ds : List DNSQuery)
    (he : e.request.host = hn)
    (hlook : dnsLookup by_hostname hn = some ds)
    (hds : ds ≠ [])
    (hpos : ∀ dq ∈ ds, 0 ≤ dq.duration) :
    ∀ (pre : List EntryT) (seen : List String), hn ∉ seen →
      (∀ x ∈ pre, x.request.host ≠ hn) →
      (∀ x ∈ pre ++ e :: post, x.time_dnsing = -1) →
      ∃ out1 e1 out2,
        dnsWalkGo by_hostname seen (pre ++ e :: post) =
          out1 ++ e1 :: out2 ∧
        out1.length = pre.length ∧
        (∀ y ∈ out1, y.request.host ≠ hn) ∧
        e1.time_dnsing = 1000 * (ds.map DNSQuery.duration).sum ∧
        ∀ y ∈ out2, y.request.host = hn → y.time_dnsing = -1 := by
  intro pre
  induction pre with
  | nil =>
    intro seen hnotseen _ hinit
    have hmem : e.request.host ∉ seen := he ▸ hnotseen
    refine ⟨[], calc_total_time (ds.foldl add_dns e),
      dnsWalkGo by_hostname (e.request.host :: seen) post, ?_, rfl,
      by simp, ?_, ?_⟩
    · rw [List.nil_append, dnsWalkGo, if_neg hmem, he, hlook]
      simp
    · rw [calc_total_time_dnsing]
      exact foldl_add_dns_sentinel ds e
        (hinit e (by simp)) hds hpos
    · intro y hy hyh
      exact dnsWalkGo_seen by_hostname hn post (e.request.host :: seen)
        (by rw [he]; exact List.mem_cons_self hn seen)
        (fun x hx => hinit x (by simp [hx])) y hy hyh
  | cons x pre ih =>
    intro seen hnotseen hpre hinit
    have hx_ne : x.request.host ≠ hn := hpre x (List.mem_cons_self x pre)
    have hpre' : ∀ z ∈ pre, z.request.host ≠ hn :=
      fun z hz => hpre z (List.mem_cons_of_mem _ hz)
    have hinit' : ∀ z ∈ pre ++ e :: post, z.time_dnsing = -1 :=
      fun z hz => hinit z (List.mem_cons_of_mem _ hz)
    by_cases hmem : x.request.host ∈ seen
    · obtain ⟨out1, e1, out2, heq, hlen, hhost, hdns, hpost⟩ :=
        ih seen hnotseen hpre' hinit'
      refine ⟨calc_total_time x :: out1, e1, out2, ?_, by simp [hlen],
        ?_, hdns, hpost⟩
      · rw [List.cons_append, dnsWalkGo, if_pos hmem, heq]
        simp
      · intro y hy
        rcases List.mem_cons.mp hy with hy | hy
        · subst hy
          rw [calc_total_time_request]
          exact hx_ne
        · exact hhost y hy
    · have hnotseen' : hn ∉ x.request.host :: seen := by
        intro hc
        rcases List.mem_cons.mp hc with hc | hc
        · exact hx_ne hc.symm
        · exact hnotseen hc
      obtain ⟨out1, e1, out2, heq, hlen, hhost, hdns, hpost⟩ :=
        ih (x.request.host :: seen) hnotseen' hpre' hinit'
      refine ⟨calc_total_time (match dnsLookup by_hostname x.request.host with
          | some dsx => dsx.foldl add_dns x
          | none => x) :: out1, e1, out2, ?_, by simp [hlen], ?_, hdns, hpost⟩
      · rw [List.cons_append, dnsWalkGo, if_neg hmem, heq]
        simp
      · intro y hy
        rcases List.mem_cons.mp hy with hy | hy
        · subst hy
          rw [calc_total_time_request]
          cases hl : dnsLookup by_hostname x.request.host with
          | none => simpa [hl] using hx_ne
          | some dsx => simpa [hl, foldl_add_dns_request] using hx_ne
        · exact hhost y hy

/-- C6: walking entries in sorted order, only the first entry for each
hostname receives DNS time — its `time_dnsing` becomes the millisecond
sum of the durations of every `DNSQuery` indexed under that hostname —
while no earlier entry is for that hostname and every later entry for
it keeps `time_dnsing = -1`; hence at most one entry has a non-`-1`
`time_dnsing` contributed by that hostname. -/
theorem c6_dns_first_entry_only
    (by_hostname : List (String × List DNSQuery)) (hn : String)
    (pre : List EntryT) (e : EntryT) (post : List EntryT)
    (ds : List DNSQuery)
    (hpre : ∀ x ∈ pre, x.request.host ≠ hn)
    (he : e.request.host = hn)
    (hlook : dnsLookup by_hostname hn = some ds)
    (hds : ds ≠ [])
    (hpos : ∀ dq ∈ ds, 0 ≤ dq.duration)
    (hinit : ∀ x ∈ pre ++ e :: post, x.time_dnsing = -1) :
    ∃ out1 e1 out2,
      dnsWalk by_hostname (pre ++ e :: post) = out1 ++ e1 :: out2 ∧
      out1.length = pre.length ∧
      (∀ y ∈ out1, y.request.host ≠ hn) ∧
      e1.time_dnsing = 1000 * (ds.map DNSQuery.duration).sum ∧
      ∀ y ∈ out2, y.request.host = hn → y.time_dnsing = -1 :=
  dnsWalkGo_first by_hostname hn e post ds he hlook hds hpos pre []
    (by simp) hpre hinit

/-- Closed instantiation of `c6_dns_first_entry_only`: one DNS query of
2 seconds indexed under hostname "x", and two entries for "x" — the
first receives 2000 ms, the second keeps `-1`. -/
theorem c6_dns_first_entry_only_witness :
    ∃ out1 e1 out2,
      dnsWalk [("x", [⟨2⟩])]
          ([] ++ ⟨⟨0, 0, none, none, "x", none⟩, none,
              -1, -1, -1, -1, -1, -1, -1, -1, -1⟩ ::
            [⟨⟨0, 0, none, none, "x", none⟩, none,
              -1, -1, -1, -1, -1, -1, -1, -1, -1⟩]) =
        out1 ++ e1 :: out2 ∧
      out1.length = ([] : List EntryT).length ∧
      (∀ y ∈ out1, y.request.host ≠ "x") ∧
      e1.time_dnsing = 1000 * (([⟨2⟩] : List DNSQuery).map
        DNSQuery.duration).sum ∧
      ∀ y ∈ out2, y.request.host = "x" → y.time_dnsing = -1 :=
  c6_dns_first_entry_only [("x", [⟨2⟩])] "x" []
    ⟨⟨0, 0, none, none, "x", none⟩, none, -1, -1, -1, -1, -1, -1, -1, -1, -1⟩
    [⟨⟨0, 0, none, none, "x", none⟩, none, -1, -1, -1, -1, -1, -1, -1, -1, -1⟩]
    [⟨2⟩] (by simp) rfl rfl (by simp)
    (by decide) (by decide)

end Pcap2Har
